import Mathlib

/-!
Verification of the groundwater chatbot's query resolution engine
(`chatbot_hybrid.py`).

Modelling conventions:
* Python strings are modelled as lists of character code points
  (`Str := List Nat`), with ASCII semantics for `str.upper`, `str.lower`
  and `str.strip` (the dataset and queries in scope are ASCII).
* Floating point metric values are modelled as rationals; the stage
  thresholds 70 / 90 / 100 are exactly representable so the comparisons
  agree with the Python floats.
* `pd.to_numeric(..., errors="coerce")` results are modelled as
  `Option ℚ` (`none` = unparseable cell, i.e. NaN before `fillna`).
* The external sentence-transformer model is a capability: an arbitrary
  function `encode : Str → List ℚ`, and the descriptor text built in
  `create_index` is a capability parameter `descr : Record → Str`
  (its exact float formatting is irrelevant to every property below).
  The FAISS `IndexFlatL2` search with `k = 1` is the arg-min of squared
  Euclidean distance over the stored vectors, first index on ties.
* Row access `df.iloc[i]` is modelled with `Option`; an out-of-bounds
  access is the explicit `Outcome.error`, so absence of `error` states
  that every `.iloc[0]` / index lookup in `answer` is in bounds.
-/

namespace Groundwater

/-- A Python string: the list of its character code points. -/
abbrev Str := List Nat

/-- Characters stripped by `str.strip()` (ASCII whitespace). -/
def isSpaceChar (c : Nat) : Bool :=
  c = 9 || c = 10 || c = 11 || c = 12 || c = 13 || c = 32

/-- `str.upper` on one character (ASCII). -/
def upChar (c : Nat) : Nat :=
  if 97 ≤ c ∧ c ≤ 122 then c - 32 else c

/-- `str.lower` on one character (ASCII). -/
def lowChar (c : Nat) : Nat :=
  if 65 ≤ c ∧ c ≤ 90 then c + 32 else c

/-- `s.upper()`. -/
def upperStr (s : Str) : Str := s.map upChar

/-- `s.lower()`. -/
def lowerStr (s : Str) : Str := s.map lowChar

/-- Left part of `s.strip()`. -/
def trimLeft (s : Str) : Str := s.dropWhile isSpaceChar

/-- Right part of `s.strip()`. -/
def trimRight (s : Str) : Str := (s.reverse.dropWhile isSpaceChar).reverse

/-- `s.strip()`. -/
def strip (s : Str) : Str := trimRight (trimLeft s)

/-- Is `pat` a prefix of `s` (Bool version of string prefix test). -/
def isPrefB : Str → Str → Bool
  | [], _ => true
  | _ :: _, [] => false
  | a :: as, b :: bs => a = b && isPrefB as bs

/-- Python's `pat in s`: contiguous substring containment. -/
def subStr (pat : Str) : Str → Bool
  | [] => isPrefB pat []
  | c :: rest => isPrefB pat (c :: rest) || subStr pat rest

/-- A decimal digit code point, the ASCII meaning of the regex `\d`. -/
def isDigit (c : Nat) : Bool := 48 ≤ c && c ≤ 57

/-- One normalized dataset row (the Record of the data model). -/
structure Record where
  district : Str
  state : Str
  year : Str
  recharge : ℚ
  available : ℚ
  extraction : ℚ
  stage : ℚ
deriving DecidableEq

/-- A raw dataset row before `load_data` normalization: text fields are
arbitrary strings, numeric cells are `some q` when `pd.to_numeric`
parses them and `none` when coercion fails (NaN). -/
structure RawRecord where
  district : Str
  state : Str
  year : Str
  recharge : Option ℚ
  available : Option ℚ
  extraction : Option ℚ
  stage : Option ℚ
deriving DecidableEq

/-- The per-row normalization performed by `load_data` (lines 87-98):
strip and upper-case DISTRICT and STATE, coerce the four metric columns
with `fillna(0)`, and cast YEAR to text (identity on a text field). -/
def normalizeRecord (r : RawRecord) : Record where
  district := upperStr (strip r.district)
  state := upperStr (strip r.state)
  year := r.year
  recharge := r.recharge.getD 0
  available := r.available.getD 0
  extraction := r.extraction.getD 0
  stage := r.stage.getD 0

/-- Re-reading a normalized Record as raw input: its strings are string
cells and its metrics are numeric cells that `pd.to_numeric` parses. -/
def recordToRaw (r : Record) : RawRecord where
  district := r.district
  state := r.state
  year := r.year
  recharge := some r.recharge
  available := some r.available
  extraction := some r.extraction
  stage := some r.stage

/-- `load_data` normalization over the whole table. -/
def normalizeTable (rows : List RawRecord) : List Record :=
  rows.map normalizeRecord

/-- The StageCategory enumeration. -/
inductive StageCat where
  | safe
  | semiCritical
  | critical
  | overExploited
  | unknown
deriving DecidableEq

/-- `stage_category` (lines 129-141): the argument is `some s` when
`float(stage)` succeeds with value `s` and `none` when it raises
`ValueError`/`TypeError`. -/
def stage_category (stage : Option ℚ) : StageCat :=
  match stage with
  | none => .unknown
  | some s =>
    if s < 70 then .safe
    else if s < 90 then .semiCritical
    else if s < 100 then .critical
    else .overExploited

/-- The three canned conversational replies of `basic_chat`. -/
inductive ChatReply where
  | greeting
  | wellbeing
  | gratitude
deriving DecidableEq

/-- Code points of "hi". -/
def hiStr : Str := [104, 105]

/-- Code points of "hello". -/
def helloStr : Str := [104, 101, 108, 108, 111]

/-- Code points of "hey". -/
def heyStr : Str := [104, 101, 121]

/-- Code points of "how are you". -/
def howAreYouStr : Str := [104, 111, 119, 32, 97, 114, 101, 32, 121, 111, 117]

/-- Code points of "thank". -/
def thankStr : Str := [116, 104, 97, 110, 107]

/-- `basic_chat` (lines 146-154): lower-case the query, then test the
three categories in order; `none` is Python's `None` (no match). -/
def basic_chat (query : Str) : Option ChatReply :=
  if [hiStr, helloStr, heyStr].any (fun g => subStr g (lowerStr query)) then
    some .greeting
  else if subStr howAreYouStr (lowerStr query) then some .wellbeing
  else if subStr thankStr (lowerStr query) then some .gratitude
  else none

/-- Does the regex `20\d{2}` match at the head of `q`? When it does,
return the four matched code points (the capture group). -/
def yearHead : Str → Option Str
  | c1 :: c2 :: c3 :: c4 :: _ =>
    if c1 = 50 ∧ c2 = 48 ∧ isDigit c3 = true ∧ isDigit c4 = true then
      some [c1, c2, c3, c4]
    else none
  | _ => none

/-- `re.findall(r"(20\d{2})", q)[0]` when a match exists (line 168-169):
the leftmost occurrence of the pattern, `none` otherwise. -/
def findYear : Str → Option Str
  | [] => none
  | c :: rest =>
    match yearHead (c :: rest) with
    | some y => some y
    | none => findYear rest

/-- `pandas.unique` order: first-occurrence deduplication, with the set
of already seen values as accumulator. -/
def uniqueAux : List Str → List Str → List Str
  | [], _ => []
  | x :: xs, seen =>
    if x ∈ seen then uniqueAux xs seen else x :: uniqueAux xs (x :: seen)

/-- `df["DISTRICT"].unique()`: distinct district names in order of first
appearance in the table (line 172). -/
def uniqueDistricts (table : List Record) : List Str :=
  uniqueAux (table.map Record.district) []

/-- The district detection loop of `answer` (lines 171-175): first name
in `unique()` order that is a substring of the upper-cased query. -/
def matchedDistrict (table : List Record) (q : Str) : Option Str :=
  (uniqueDistricts table).find? (fun d => subStr d q)

/-- Python string `<`: lexicographic comparison of code points, a proper
prefix is smaller. -/
def strLt : Str → Str → Bool
  | _, [] => false
  | [], _ :: _ => true
  | a :: as, b :: bs => decide (a < b) || (decide (a = b) && strLt as bs)

/-- Keep the row with the larger YEAR string (left one on ties). -/
def pickMax (acc x : Record) : Record :=
  if strLt acc.year x.year then x else acc

/-- `df_district.sort_values("YEAR", ascending=False).iloc[0]`
(line 183): a row of the group whose YEAR string is maximal under the
Python string order (the head of a descending sort). -/
def maxYearRow : List Record → Option Record
  | [] => none
  | r :: rest => some (rest.foldl pickMax r)

/-- Squared Euclidean distance, the metric of `faiss.IndexFlatL2`. -/
def sqDist (u v : List ℚ) : ℚ :=
  (List.zipWith (fun a b => (a - b) * (a - b)) u v).sum

/-- Index of the minimum, scanning with the best index and value so far;
a later element replaces the best only when strictly smaller. -/
def argminAux : List ℚ → Nat → ℚ → Nat → Nat
  | [], bi, _, _ => bi
  | d :: rest, bi, bv, i =>
    if d < bv then argminAux rest i d (i + 1) else argminAux rest bi bv (i + 1)

/-- `index.search(query_vec, k=1)` on `IndexFlatL2`: position of the
stored vector closest to the query (first index on ties). -/
def argminIdx : List ℚ → Nat
  | [] => 0
  | d :: rest => argminAux rest 0 d 1

/-- The observable result of one `answer` call.  `unavailable` is the
fixed data-unavailable message (line 161), `chat c` a canned
conversational reply, `exact r` the structured answer rendered from row
`r` (lines 185-191), `nearest r` the "Closest data I found" answer
rendered from row `r` (lines 197-204), and `error` an uncaught
exception, i.e. an out-of-bounds `.iloc` or index lookup. -/
inductive Outcome where
  | unavailable
  | chat (c : ChatReply)
  | exact (r : Record)
  | nearest (r : Record)
  | error
deriving DecidableEq

/-- The structured row selection of `answer` once a district matched
(lines 178-183): `q` is the upper-cased query and `d` the matched
district.  `df.iloc[0]` on an empty frame would raise, hence `Option`:
`none` is the out-of-bounds case. -/
def selectRow (table : List Record) (q : Str) (d : Str) : Option Record :=
  match findYear q with
  | some y =>
    match ((table.filter (fun r => decide (r.district = d))).filter
        (fun r => subStr y r.year)).head? with
    | some r => some r
    | none => (table.filter (fun r => decide (r.district = d))).head?
  | none => maxYearRow (table.filter (fun r => decide (r.district = d)))

/-- The FAISS lookup of `answer` (lines 193-194): position returned by
`index.search(model.encode([query]), k=1)`, where the index stores the
encoded descriptor of each Record in table order (`create_index`). -/
def nearestIdx (encode : Str → List ℚ) (descr : Record → Str)
    (table : List Record) (query : Str) : Nat :=
  argminIdx ((table.map (fun r => encode (descr r))).map
    (fun v => sqDist (encode query) v))

/-- `answer(query, model, index, texts, df)` (lines 159-204).  `encode`
is the sentence-transformer capability and `descr` the row-descriptor
builder of `create_index`; the FAISS index holds
`(table.map (fun r => encode (descr r)))` in table order, as built by
`create_index` on the same frame. -/
def answer (encode : Str → List ℚ) (descr : Record → Str)
    (table : List Record) (query : Str) : Outcome :=
  if table = [] then .unavailable
  else
    match basic_chat query with
    | some c => .chat c
    | none =>
      match matchedDistrict table (upperStr query) with
      | some d =>
        match selectRow table (upperStr query) d with
        | some r => .exact r
        | none => .error
      | none =>
        match table.get? (nearestIdx encode descr table query) with
        | some r => .nearest r
        | none => .error

/-! ## Helper lemmas: substring containment -/

/-- Bool prefix test, characterized through `take`. -/
theorem isPrefB_iff_take (pat : Str) :
    ∀ t : Str, isPrefB pat t = true ↔ t.take pat.length = pat := by
  induction pat with
  | nil => intro t; simp [isPrefB]
  | cons a as ih =>
    intro t
    cases t with
    | nil => simp [isPrefB]
    | cons b bs =>
      simp [isPrefB, ih bs, List.take_cons, eq_comm (a := a) (b := b)]

/-- Python `pat in s` holds exactly when `pat` occurs contiguously in
`s` at some offset. -/
theorem subStr_iff_drop (pat : Str) :
    ∀ s : Str, subStr pat s = true ↔ ∃ i, (s.drop i).take pat.length = pat := by
  intro s
  induction s with
  | nil =>
    simp only [subStr, isPrefB_iff_take]
    constructor
    · intro h; exact ⟨0, h⟩
    · rintro ⟨i, hi⟩; simpa using hi
  | cons c rest ih =>
    simp only [subStr, Bool.or_eq_true, isPrefB_iff_take, ih]
    constructor
    · rintro (h | ⟨i, hi⟩)
      · exact ⟨0, h⟩
      · exact ⟨i + 1, by simpa using hi⟩
    · rintro ⟨i, hi⟩
      cases i with
      | zero => exact Or.inl hi
      | succ k => exact Or.inr ⟨k, by simpa using hi⟩

/-! ## Helper lemmas: `find?`, `filter`, `uniqueAux` -/

/-- `find?` returns the first element satisfying the predicate: the
witness position and the failure of every earlier position. -/
theorem find?_some_char {α : Type} {p : α → Bool} :
    ∀ {l : List α} {a : α}, l.find? p = some a →
      ∃ i, l.get? i = some a ∧ p a = true ∧
        ∀ j, j < i → ∀ x, l.get? j = some x → p x = false := by
  intro l
  induction l with
  | nil => intro a h; simp [List.find?] at h
  | cons b bs ih =>
    intro a h
    by_cases hb : p b = true
    · rw [List.find?_cons_of_pos _ hb] at h
      obtain rfl : b = a := by injection h
      exact ⟨0, rfl, hb, fun j hj => absurd hj (Nat.not_lt_zero j)⟩
    · rw [List.find?_cons_of_neg _ hb] at h
      obtain ⟨i, hi, hpa, hall⟩ := ih h
      refine ⟨i + 1, by simpa using hi, hpa, ?_⟩
      intro j hj x hx
      cases j with
      | zero =>
        obtain rfl : b = x := by simpa using hx
        simpa using hb
      | succ k => exact hall k (by omega) x (by simpa using hx)

/-- The head of a filtered list is the first element passing the
filter. -/
theorem head?_filter_eq {α : Type} (p : α → Bool) :
    ∀ l : List α, (l.filter p).head? = l.find? p := by
  intro l
  induction l with
  | nil => rfl
  | cons x xs ih =>
    by_cases hx : p x = true
    · simp [List.filter_cons, hx, List.find?_cons_of_pos _ hx]
    · simp only [List.filter_cons, hx, List.find?_cons_of_neg _ hx,
        Bool.false_eq_true, if_false]
      exact ih

/-- `find?` after `filter` is `find?` of the conjunction. -/
theorem find?_filter_eq {α : Type} (p q : α → Bool) :
    ∀ l : List α, (l.filter p).find? q = l.find? (fun x => p x && q x) := by
  intro l
  induction l with
  | nil => rfl
  | cons x xs ih =>
    by_cases hx : p x = true
    · by_cases hq : q x = true
      · simp [List.filter_cons, hx, List.find?_cons_of_pos, hq]
      · have h1 : (fun y => p y && q y) x = false := by simp [hx, hq]
        have h2 : ¬ q x = true := hq
        simp only [List.filter_cons, hx, if_true]
        rw [List.find?_cons_of_neg _ h2, List.find?_cons_of_neg _ (by simp [h1]), ih]
    · have h1 : (fun y => p y && q y) x = false := by simp [hx]
      simp only [List.filter_cons, hx, Bool.false_eq_true, if_false]
      rw [List.find?_cons_of_neg _ (by simp [h1]), ih]

/-- Scanning the first-occurrence deduplication with `find?` agrees
with scanning the raw list, provided every already-seen value fails the
predicate. -/
theorem find?_uniqueAux (p : Str → Bool) :
    ∀ (l seen : List Str), (∀ x ∈ seen, p x = false) →
      (uniqueAux l seen).find? p = l.find? p := by
  intro l
  induction l with
  | nil => intro seen _; rfl
  | cons x xs ih =>
    intro seen hseen
    by_cases hx : x ∈ seen
    · have hpx : ¬ p x = true := by simp [hseen x hx]
      rw [uniqueAux, if_pos hx, ih seen hseen, List.find?_cons_of_neg _ hpx]
    · rw [uniqueAux, if_neg hx]
      by_cases hpx : p x = true
      · rw [List.find?_cons_of_pos _ hpx, List.find?_cons_of_pos _ hpx]
      · rw [List.find?_cons_of_neg _ hpx, List.find?_cons_of_neg _ hpx]
        refine ih (x :: seen) ?_
        intro y hy
        rcases List.mem_cons.mp hy with rfl | hy
        · simpa using hpx
        · exact hseen y hy

/-- The district detection loop is the first district, in table order,
whose name occurs in the query. -/
theorem matchedDistrict_eq_find? (table : List Record) (q : Str) :
    matchedDistrict table q =
      (table.map Record.district).find? (fun d => subStr d q) := by
  unfold matchedDistrict uniqueDistricts
  exact find?_uniqueAux _ _ [] (by intro x hx; simp at hx)

/-! ## Helper lemmas: the string order and `maxYearRow` -/

/-- A string is never less than itself. -/
theorem strLt_irrefl : ∀ s : Str, strLt s s = false := by
  intro s
  induction s with
  | nil => rfl
  | cons a as ih => simp [strLt, ih]

/-- Transitivity of the Python string order. -/
theorem strLt_trans :
    ∀ (a b c : Str), strLt a b = true → strLt b c = true → strLt a c = true
  | _, b, [], _, h2 => by cases b <;> simp [strLt] at h2
  | [], [], _ :: _, h1, _ => by simp [strLt] at h1
  | [], _ :: _, _ :: _, _, _ => by simp [strLt]
  | _ :: _, [], _ :: _, h1, _ => by simp [strLt] at h1
  | a :: as, b :: bs, c :: cs, h1, h2 => by
    simp only [strLt, Bool.or_eq_true, Bool.and_eq_true, decide_eq_true_eq] at h1 h2 ⊢
    rcases h1 with h1 | ⟨rfl, h1⟩
    · rcases h2 with h2 | ⟨rfl, h2⟩
      · exact Or.inl (h1.trans h2)
      · exact Or.inl h1
    · rcases h2 with h2 | ⟨rfl, h2⟩
      · exact Or.inl h2
      · exact Or.inr ⟨rfl, strLt_trans as bs cs h1 h2⟩

/-- Transitivity of the complementary order (not-less-than). -/
theorem strLt_false_trans :
    ∀ (a b c : Str), strLt a b = false → strLt b c = false → strLt a c = false
  | _, _, [], _, _ => by simp [strLt]
  | [], [], _ :: _, _, h2 => by simp [strLt] at h2
  | [], _ :: _, _ :: _, h1, _ => by simp [strLt] at h1
  | _ :: _, [], _ :: _, _, h2 => by simp [strLt] at h2
  | a :: as, b :: bs, c :: cs, h1, h2 => by
    simp only [strLt, Bool.or_eq_false_iff, Bool.and_eq_false_iff,
      decide_eq_false_iff_not, decide_eq_true_eq] at h1 h2 ⊢
    obtain ⟨hab, h1'⟩ := h1
    obtain ⟨hbc, h2'⟩ := h2
    constructor
    · omega
    · by_cases hac : a = c
      · subst hac
        have hb : b = a := by omega
        subst hb
        rcases h1' with h | h
        · exact absurd rfl h
        · rcases h2' with h' | h'
          · exact absurd rfl h'
          · exact Or.inr (strLt_false_trans as bs cs h h')
      · exact Or.inl hac

/-- The fold inside `maxYearRow` returns one of the candidate rows. -/
theorem foldl_pickMax_mem :
    ∀ (l : List Record) (r : Record), l.foldl pickMax r ∈ r :: l := by
  intro l
  induction l with
  | nil => intro r; simp
  | cons x xs ih =>
    intro r
    have h := ih (pickMax r x)
    simp only [List.foldl_cons]
    rcases List.mem_cons.mp h with h | h
    · by_cases hc : strLt r.year x.year = true
      · rw [h, pickMax, if_pos hc]; simp
      · rw [h, pickMax, if_neg hc]; simp
    · simp [h]

/-- The fold inside `maxYearRow` returns a row whose YEAR string no
candidate row strictly exceeds. -/
theorem foldl_pickMax_ge :
    ∀ (l : List Record) (r y : Record), y ∈ r :: l →
      strLt (l.foldl pickMax r).year y.year = false := by
  intro l
  induction l with
  | nil =>
    intro r y hy
    obtain rfl : y = r := by simpa using hy
    simpa using strLt_irrefl y.year
  | cons x xs ih =>
    intro r y hy
    simp only [List.foldl_cons]
    rcases List.mem_cons.mp hy with h | hy
    · subst h
      by_cases hc : strLt y.year x.year = true
      · have hx : strLt (xs.foldl pickMax (pickMax y x)).year x.year = false :=
          ih (pickMax y x) x (by rw [pickMax, if_pos hc]; simp)
        by_contra hcon
        have hcon' : strLt (xs.foldl pickMax (pickMax y x)).year y.year = true := by
          revert hcon
          cases strLt (xs.foldl pickMax (pickMax y x)).year y.year <;> simp
        have htr := strLt_trans _ _ _ hcon' hc
        rw [htr] at hx
        simp at hx
      · exact ih (pickMax y x) y (by rw [pickMax, if_neg hc]; simp)
    · rcases List.mem_cons.mp hy with h | hy
      · subst h
        by_cases hc : strLt r.year y.year = true
        · exact ih (pickMax r y) y (by rw [pickMax, if_pos hc]; simp)
        · have hr : strLt (xs.foldl pickMax (pickMax r y)).year r.year = false :=
            ih (pickMax r y) r (by rw [pickMax, if_neg hc]; simp)
          have hc' : strLt r.year y.year = false := by
            revert hc
            cases strLt r.year y.year <;> simp
          exact strLt_false_trans _ _ _ hr hc'
      · exact ih (pickMax r x) y (by simp [hy])

/-! ## Helper lemmas: the arg-min of the FAISS search -/

/-- The scan of `argminAux` only ever answers with the best index so
far or with the position of a later element. -/
theorem argminAux_lt :
    ∀ (ds : List ℚ) (bi : Nat) (bv : ℚ) (i : Nat), bi < i →
      argminAux ds bi bv i < i + ds.length := by
  intro ds
  induction ds with
  | nil => intro bi bv i h; simpa [argminAux] using h
  | cons d rest ih =>
    intro bi bv i h
    rw [argminAux]
    by_cases hd : d < bv
    · rw [if_pos hd]
      have h2 := ih i d (i + 1) (by omega)
      simp only [List.length_cons]
      omega
    · rw [if_neg hd]
      have h2 := ih bi bv (i + 1) (by omega)
      simp only [List.length_cons]
      omega

/-- On a non-empty distance list the arg-min position is in bounds. -/
theorem argminIdx_lt (d : ℚ) (rest : List ℚ) :
    argminIdx (d :: rest) < (d :: rest).length := by
  rw [argminIdx]
  have h := argminAux_lt rest 0 d 1 (by omega)
  simp only [List.length_cons]
  omega

/-! ## Helper lemmas: idempotence of strip and upper-case -/

/-- Dropping a prefix twice is dropping it once. -/
theorem dropWhile_self (p : Nat → Bool) :
    ∀ l : Str, List.dropWhile p (List.dropWhile p l) = List.dropWhile p l := by
  intro l
  induction l with
  | nil => rfl
  | cons x xs ih =>
    by_cases h : p x = true
    · simp [List.dropWhile_cons, h, ih]
    · simp [List.dropWhile_cons, h]

/-- `dropWhile` never lengthens a list. -/
theorem length_dropWhile_le (p : Nat → Bool) :
    ∀ l : Str, (l.dropWhile p).length ≤ l.length := by
  intro l
  induction l with
  | nil => simp
  | cons x xs ih =>
    by_cases h : p x = true
    · rw [List.dropWhile_cons, if_pos h]
      exact ih.trans (by simp)
    · rw [List.dropWhile_cons, if_neg h]

/-- Left trim is idempotent. -/
theorem trimLeft_trimLeft (s : Str) : trimLeft (trimLeft s) = trimLeft s :=
  dropWhile_self _ s

/-- Right trim is idempotent. -/
theorem trimRight_trimRight (s : Str) : trimRight (trimRight s) = trimRight s := by
  unfold trimRight
  rw [List.reverse_reverse, dropWhile_self]

/-- When the final element survives the drop, the result still ends in
that element. -/
theorem dropWhile_append_last (p : Nat → Bool) (x : Nat) (hx : p x = false) :
    ∀ l : Str, ∃ ys, List.dropWhile p (l ++ [x]) = ys ++ [x] := by
  intro l
  induction l with
  | nil => exact ⟨[], by simp [List.dropWhile_cons, hx]⟩
  | cons a as ih =>
    by_cases h : p a = true
    · obtain ⟨ys, hys⟩ := ih
      exact ⟨ys, by simp [List.dropWhile_cons, h, hys]⟩
    · exact ⟨a :: as, by simp [List.dropWhile_cons, h]⟩

/-- Right trim preserves the property of being left-trimmed. -/
theorem trimLeft_trimRight (s : Str) (hs : trimLeft s = s) :
    trimLeft (trimRight s) = trimRight s := by
  cases s with
  | nil => rfl
  | cons c cs =>
    have hc : isSpaceChar c = false := by
      by_contra hcon
      have hc' : isSpaceChar c = true := by
        revert hcon; cases isSpaceChar c <;> simp
      rw [trimLeft, List.dropWhile_cons, if_pos hc'] at hs
      have hlen := congrArg List.length hs
      have hle := length_dropWhile_le isSpaceChar cs
      simp only [List.length_cons] at hlen
      omega
    rw [trimRight, List.reverse_cons]
    obtain ⟨ys, hys⟩ := dropWhile_append_last isSpaceChar c hc cs.reverse
    rw [hys, List.reverse_append]
    simp only [List.reverse_cons, List.reverse_nil, List.nil_append,
      List.singleton_append]
    rw [trimLeft, List.dropWhile_cons, if_neg (by simp [hc])]

/-- `str.strip` is idempotent. -/
theorem strip_strip (s : Str) : strip (strip s) = strip s := by
  unfold strip
  rw [trimLeft_trimRight _ (trimLeft_trimLeft s), trimRight_trimRight]

/-- Upper-casing one character is idempotent. -/
theorem upChar_upChar (c : Nat) : upChar (upChar c) = upChar c := by
  unfold upChar
  split_ifs <;> omega

/-- Upper-casing does not create or destroy whitespace. -/
theorem isSpaceChar_upChar (c : Nat) : isSpaceChar (upChar c) = isSpaceChar c := by
  unfold upChar
  split_ifs with h
  · have h1 : isSpaceChar (c - 32) = false := by
      simp only [isSpaceChar, Bool.or_eq_false_iff, decide_eq_false_iff_not]
      omega
    have h2 : isSpaceChar c = false := by
      simp only [isSpaceChar, Bool.or_eq_false_iff, decide_eq_false_iff_not]
      omega
    rw [h1, h2]
  · rfl

/-- `str.upper` is idempotent. -/
theorem upperStr_upperStr (s : Str) : upperStr (upperStr s) = upperStr s := by
  unfold upperStr
  rw [List.map_map]
  exact List.map_eq_map_iff.mpr (fun x _ => upChar_upChar x)

/-- `str.strip` commutes with `str.upper`. -/
theorem strip_upperStr (s : Str) : strip (upperStr s) = upperStr (strip s) := by
  have hfun : (isSpaceChar ∘ upChar) = isSpaceChar := by
    funext c; exact isSpaceChar_upChar c
  unfold strip trimLeft trimRight upperStr
  rw [List.dropWhile_map, hfun, ← List.map_reverse, List.dropWhile_map, hfun,
    ← List.map_reverse]

/-- The district/state text normalization of `load_data` is a fixed
point on its own output. -/
theorem normStr_idem (s : Str) :
    upperStr (strip (upperStr (strip s))) = upperStr (strip s) := by
  rw [strip_upperStr, strip_strip, upperStr_upperStr]

/-! ## Helper lemmas: year detection -/

/-- The regex `20\d{2}` matches at offset `i` of `q`. -/
def yearTokenAt (q : Str) (i : Nat) : Prop :=
  ∃ a b, q.get? i = some 50 ∧ q.get? (i + 1) = some 48 ∧
    q.get? (i + 2) = some a ∧ q.get? (i + 3) = some b ∧
    isDigit a = true ∧ isDigit b = true

/-- A head match of the pattern is a match at offset 0. -/
theorem yearHead_some_tokenAt (q y : Str) (h : yearHead q = some y) :
    yearTokenAt q 0 := by
  match q with
  | [] => simp [yearHead] at h
  | [c1] => simp [yearHead] at h
  | [c1, c2] => simp [yearHead] at h
  | [c1, c2, c3] => simp [yearHead] at h
  | c1 :: c2 :: c3 :: c4 :: rest =>
    rw [yearHead] at h
    by_cases hc : c1 = 50 ∧ c2 = 48 ∧ isDigit c3 = true ∧ isDigit c4 = true
    · obtain ⟨h1, h2, h3, h4⟩ := hc
      exact ⟨c3, c4, by simp [h1], by simp [h2], by simp, by simp, h3, h4⟩
    · rw [if_neg hc] at h
      exact absurd h (by simp)

/-- The value of a head match is the four matched code points. -/
theorem yearHead_some_val (q y : Str) (h : yearHead q = some y) :
    ∃ a b, q.get? 2 = some a ∧ q.get? 3 = some b ∧ y = [50, 48, a, b] := by
  match q with
  | [] => simp [yearHead] at h
  | [c1] => simp [yearHead] at h
  | [c1, c2] => simp [yearHead] at h
  | [c1, c2, c3] => simp [yearHead] at h
  | c1 :: c2 :: c3 :: c4 :: rest =>
    rw [yearHead] at h
    by_cases hc : c1 = 50 ∧ c2 = 48 ∧ isDigit c3 = true ∧ isDigit c4 = true
    · obtain ⟨h1, h2, h3, h4⟩ := hc
      rw [if_pos ⟨h1, h2, h3, h4⟩] at h
      obtain rfl : [c1, c2, c3, c4] = y := by injection h
      exact ⟨c3, c4, by simp, by simp, by simp [h1, h2]⟩
    · rw [if_neg hc] at h
      exact absurd h (by simp)

/-- No head match means the pattern does not match at offset 0. -/
theorem yearHead_none_iff (q : Str) :
    yearHead q = none ↔ ¬ yearTokenAt q 0 := by
  match q with
  | [] =>
    simp only [yearHead, yearTokenAt]
    simp
  | [c1] =>
    simp only [yearHead, yearTokenAt]
    simp
  | [c1, c2] =>
    simp only [yearHead, yearTokenAt]
    simp
  | [c1, c2, c3] =>
    simp only [yearHead, yearTokenAt]
    simp
  | c1 :: c2 :: c3 :: c4 :: rest =>
    rw [yearHead]
    by_cases hc : c1 = 50 ∧ c2 = 48 ∧ isDigit c3 = true ∧ isDigit c4 = true
    · rw [if_pos hc]
      obtain ⟨h1, h2, h3, h4⟩ := hc
      simp only [yearTokenAt]
      constructor
      · intro h; exact absurd h (by simp)
      · intro h
        exact absurd (⟨c3, c4, by simp [h1], by simp [h2], by simp, by simp, h3, h4⟩ :
          ∃ a b, _) h
    · rw [if_neg hc]
      simp only [yearTokenAt]
      constructor
      · rintro - ⟨a, b, h1, h2, h3, h4, h5, h6⟩
        obtain rfl : 50 = c1 := by simpa using h1.symm
        obtain rfl : 48 = c2 := by simpa using h2.symm
        obtain rfl : c3 = a := by simpa using h3
        obtain rfl : c4 = b := by simpa using h4
        exact hc ⟨rfl, rfl, h5, h6⟩
      · intro _; trivial

/-- Shifting a match position across a cons cell. -/
theorem yearTokenAt_cons (c : Nat) (q : Str) (i : Nat) :
    yearTokenAt (c :: q) (i + 1) ↔ yearTokenAt q i := by
  have h1 : (c :: q).get? (i + 1) = q.get? i := List.get?_cons_succ
  have h2 : (c :: q).get? (i + 1 + 1) = q.get? (i + 1) := List.get?_cons_succ
  have h3 : (c :: q).get? (i + 1 + 2) = q.get? (i + 2) := by
    have e : i + 1 + 2 = (i + 2) + 1 := by omega
    rw [e]; exact List.get?_cons_succ
  have h4 : (c :: q).get? (i + 1 + 3) = q.get? (i + 3) := by
    have e : i + 1 + 3 = (i + 3) + 1 := by omega
    rw [e]; exact List.get?_cons_succ
  unfold yearTokenAt
  rw [h1, h2, h3, h4]

/-- `findYear` fails exactly when the pattern matches nowhere. -/
theorem findYear_none_iff : ∀ q : Str, (findYear q = none ↔ ∀ i, ¬ yearTokenAt q i) := by
  intro q
  induction q with
  | nil =>
    constructor
    · intro _ i
      rintro ⟨a, b, h1, -⟩
      simp at h1
    · intro _; rfl
  | cons c rest ih =>
    cases hyh : yearHead (c :: rest) with
    | some y =>
      simp only [findYear, hyh]
      constructor
      · intro h; exact absurd h (by simp)
      · intro h; exact absurd (yearHead_some_tokenAt _ _ hyh) (h 0)
    | none =>
      simp only [findYear, hyh]
      rw [ih]
      constructor
      · intro h i
        cases i with
        | zero => exact (yearHead_none_iff _).mp hyh
        | succ k => rw [yearTokenAt_cons]; exact h k
      · intro h k
        rw [← yearTokenAt_cons c rest k]
        exact h (k + 1)

/-- A successful `findYear` is the leftmost match, and the returned
token is exactly the four matched code points. -/
theorem findYear_some_char :
    ∀ (q y : Str), findYear q = some y →
      ∃ i, yearTokenAt q i ∧
        (∃ a b, q.get? (i + 2) = some a ∧ q.get? (i + 3) = some b ∧
          y = [50, 48, a, b]) ∧
        ∀ j, j < i → ¬ yearTokenAt q j := by
  intro q
  induction q with
  | nil => intro y h; simp [findYear] at h
  | cons c rest ih =>
    intro y h
    cases hyh : yearHead (c :: rest) with
    | some y' =>
      simp only [findYear, hyh] at h
      obtain rfl : y' = y := by injection h
      refine ⟨0, yearHead_some_tokenAt _ _ hyh, ?_, ?_⟩
      · obtain ⟨a, b, h3, h4, h6⟩ := yearHead_some_val _ _ hyh
        exact ⟨a, b, by simpa using h3, by simpa using h4, h6⟩
      · intro j hj; exact absurd hj (Nat.not_lt_zero j)
    | none =>
      simp only [findYear, hyh] at h
      obtain ⟨i, hi, ⟨a, b, ha, hb, hy⟩, hall⟩ := ih y h
      refine ⟨i + 1, (yearTokenAt_cons c rest i).mpr hi, ⟨a, b, ?_, ?_, hy⟩, ?_⟩
      · have e : i + 1 + 2 = (i + 2) + 1 := by omega
        rw [e, List.get?_cons_succ]; exact ha
      · have e : i + 1 + 3 = (i + 3) + 1 := by omega
        rw [e, List.get?_cons_succ]; exact hb
      · intro j hj
        cases j with
        | zero => exact (yearHead_none_iff _).mp hyh
        | succ k =>
          rw [yearTokenAt_cons]
          exact hall k (by omega)

/-! ## Helper lemmas: the control flow of `answer` -/

/-- With a non-empty table, a conversational match short-circuits to the
canned reply. -/
theorem answer_chat_of_basic (encode : Str → List ℚ) (descr : Record → Str)
    (table : List Record) (query : Str) (c : ChatReply)
    (hne : table ≠ []) (hc : basic_chat query = some c) :
    answer encode descr table query = Outcome.chat c := by
  unfold answer
  rw [if_neg hne]
  simp only [hc]

/-- The structured path: district matched and row selection succeeded. -/
theorem answer_exact_of_select (encode : Str → List ℚ) (descr : Record → Str)
    (table : List Record) (query : Str) (d : Str) (r : Record)
    (hne : table ≠ []) (hchat : basic_chat query = none)
    (hd : matchedDistrict table (upperStr query) = some d)
    (hr : selectRow table (upperStr query) d = some r) :
    answer encode descr table query = Outcome.exact r := by
  unfold answer
  rw [if_neg hne]
  simp only [hchat, hd, hr]

/-- The fallback path: no district matched, FAISS lookup in bounds. -/
theorem answer_nearest_of_no_district (encode : Str → List ℚ)
    (descr : Record → Str) (table : List Record) (query : Str) (r : Record)
    (hne : table ≠ []) (hchat : basic_chat query = none)
    (hd : matchedDistrict table (upperStr query) = none)
    (hr : table.get? (nearestIdx encode descr table query) = some r) :
    answer encode descr table query = Outcome.nearest r := by
  unfold answer
  rw [if_neg hne]
  simp only [hchat, hd, hr]

/-- Branch equation of `selectRow`: no year token. -/
theorem selectRow_no_year (table : List Record) (q d : Str)
    (hy : findYear q = none) :
    selectRow table q d =
      maxYearRow (table.filter (fun r => decide (r.district = d))) := by
  unfold selectRow
  simp only [hy]

/-- Branch equation of `selectRow`: year token present and some row of
the district carries it. -/
theorem selectRow_year_hit (table : List Record) (q d y : Str) (r : Record)
    (hy : findYear q = some y)
    (hh : ((table.filter (fun x => decide (x.district = d))).filter
      (fun x => subStr y x.year)).head? = some r) :
    selectRow table q d = some r := by
  unfold selectRow
  simp only [hy, hh]

/-- Branch equation of `selectRow`: year token present but no row of
the district carries it. -/
theorem selectRow_year_miss (table : List Record) (q d y : Str)
    (hy : findYear q = some y)
    (hh : ((table.filter (fun x => decide (x.district = d))).filter
      (fun x => subStr y x.year)).head? = none) :
    selectRow table q d = (table.filter (fun x => decide (x.district = d))).head? := by
  unfold selectRow
  simp only [hy, hh]

/-- Row selection always yields a row when the district occurs in the
table. -/
theorem selectRow_some_of_mem (table : List Record) (q d : Str)
    (h : ∃ r ∈ table, r.district = d) : ∃ r, selectRow table q d = some r := by
  obtain ⟨r0, hr0, hd0⟩ := h
  have hmem : r0 ∈ table.filter (fun r => decide (r.district = d)) :=
    List.mem_filter.mpr ⟨hr0, by simp [hd0]⟩
  cases hdf : table.filter (fun r => decide (r.district = d)) with
  | nil => rw [hdf] at hmem; simp at hmem
  | cons x xs =>
    unfold selectRow
    rw [hdf]
    cases hy : findYear q with
    | none => exact ⟨_, by simp only [hy]; rfl⟩
    | some y =>
      cases hh : ((x :: xs).filter (fun r => subStr y r.year)).head? with
      | some r => exact ⟨r, by simp only [hy, hh]⟩
      | none => exact ⟨x, by simp only [hy, hh]; rfl⟩

/-- A matched district is the district of some table row. -/
theorem matchedDistrict_mem (table : List Record) (q d : Str)
    (hd : matchedDistrict table q = some d) : ∃ r ∈ table, r.district = d := by
  rw [matchedDistrict_eq_find?] at hd
  have hmem := List.mem_of_find?_eq_some hd
  rw [List.mem_map] at hmem
  obtain ⟨r, hr, hrd⟩ := hmem
  exact ⟨r, hr, hrd⟩

/-! ## Helper lemmas: the three conversational categories -/

/-- A greeting substring forces the greeting reply, regardless of what
else the query contains. -/
theorem basic_chat_greeting (query : Str)
    (h : subStr hiStr (lowerStr query) = true ∨
      subStr helloStr (lowerStr query) = true ∨
      subStr heyStr (lowerStr query) = true) :
    basic_chat query = some ChatReply.greeting := by
  have hb : [hiStr, helloStr, heyStr].any (fun g => subStr g (lowerStr query)) = true := by
    simp only [List.any_cons, List.any_nil, Bool.or_eq_true]
    tauto
  unfold basic_chat
  rw [if_pos hb]

/-- Without a greeting, the wellbeing phrase forces the wellbeing
reply. -/
theorem basic_chat_wellbeing (query : Str)
    (h1 : ¬ (subStr hiStr (lowerStr query) = true ∨
      subStr helloStr (lowerStr query) = true ∨
      subStr heyStr (lowerStr query) = true))
    (h2 : subStr howAreYouStr (lowerStr query) = true) :
    basic_chat query = some ChatReply.wellbeing := by
  simp only [not_or, Bool.not_eq_true] at h1
  have hb : [hiStr, helloStr, heyStr].any (fun g => subStr g (lowerStr query)) = false := by
    simp [List.any_cons, List.any_nil, h1.1, h1.2.1, h1.2.2]
  unfold basic_chat
  rw [if_neg (by simp [hb]), if_pos h2]

/-- Without a greeting and without the wellbeing phrase, a gratitude
token forces the gratitude reply. -/
theorem basic_chat_gratitude (query : Str)
    (h1 : ¬ (subStr hiStr (lowerStr query) = true ∨
      subStr helloStr (lowerStr query) = true ∨
      subStr heyStr (lowerStr query) = true))
    (h2 : subStr howAreYouStr (lowerStr query) = false)
    (h3 : subStr thankStr (lowerStr query) = true) :
    basic_chat query = some ChatReply.gratitude := by
  simp only [not_or, Bool.not_eq_true] at h1
  have hb : [hiStr, helloStr, heyStr].any (fun g => subStr g (lowerStr query)) = false := by
    simp [List.any_cons, List.any_nil, h1.1, h1.2.1, h1.2.2]
  unfold basic_chat
  rw [if_neg (by simp [hb]), if_neg (by simp [h2]), if_pos h3]

/-! ## Concrete fixtures -/

/-- District name "GUNTUR". -/
def gunturStr : Str := [71, 85, 78, 84, 85, 82]

/-- GUNTUR row for year "2018". -/
def guntur2018 : Record := ⟨gunturStr, [65, 80], [50, 48, 49, 56], 120, 80, 60, 50⟩

/-- GUNTUR row for year "2019". -/
def guntur2019 : Record := ⟨gunturStr, [65, 80], [50, 48, 49, 57], 118, 79, 62, 80⟩

/-- GUNTUR row for year "2020". -/
def guntur2020 : Record := ⟨gunturStr, [65, 80], [50, 48, 50, 48], 121, 81, 64, 95⟩

/-- A three-year GUNTUR table. -/
def gunturTable : List Record := [guntur2018, guntur2019, guntur2020]

/-- The query "guntur" (district, no year, no greeting). -/
def gunturQuery : Str := [103, 117, 110, 116, 117, 114]

/-- The query "guntur 2019". -/
def gunturQuery2019 : Str := gunturQuery ++ [32, 50, 48, 49, 57]

/-- District name "PURI". -/
def puriStr : Str := [80, 85, 82, 73]

/-- District name "PURI EAST", of which "PURI" is a proper substring. -/
def puriEastStr : Str := puriStr ++ [32, 69, 65, 83, 84]

/-- A PURI row. -/
def puriRow : Record := ⟨puriStr, [79, 68], [50, 48, 50, 48], 1, 2, 3, 4⟩

/-- A PURI EAST row. -/
def puriEastRow : Record := ⟨puriEastStr, [79, 68], [50, 48, 50, 48], 5, 6, 7, 8⟩

/-- A table where PURI precedes PURI EAST. -/
def shadowTable : List Record := [puriRow, puriEastRow]

/-- District name "DELHI", which contains "hi" once lower-cased. -/
def delhiStr : Str := [68, 69, 76, 72, 73]

/-- A DELHI row. -/
def delhiRow : Record := ⟨delhiStr, [68, 76], [50, 48, 50, 48], 1, 2, 3, 4⟩

/-- The query "delhi". -/
def delhiQuery : Str := [100, 101, 108, 104, 105]

/-- The query "hello, thank you", matching two conversational
categories at once. -/
def helloThankQuery : Str :=
  [104, 101, 108, 108, 111, 44, 32, 116, 104, 97, 110, 107, 32, 121, 111, 117]

/-- The query "2020-21": a year with a hyphenated two-digit suffix. -/
def hyphenYearQuery : Str := [50, 48, 50, 48, 45, 50, 49]

/-- A degenerate embedding capability for witnesses. -/
def encode0 : Str → List ℚ := fun _ => [0]

/-- A degenerate descriptor capability for witnesses. -/
def descr0 : Record → Str := fun _ => []

/-! ## Claims -/

/-- C1: for every non-empty Record table and every query not intercepted
by the conversational fallback, `answer` returns exactly one Record —
one structured hit or one nearest-neighbor hit, never zero, never
multiple, and never the out-of-bounds `error` — so the `.iloc[0]`
accesses on the district-filtered frame and the FAISS-index lookup are
always in bounds. -/
theorem C1_row_selector_total (encode : Str → List ℚ) (descr : Record → Str)
    (table : List Record) (query : Str)
    (hne : table ≠ []) (hchat : basic_chat query = none) :
    ∃ r : Record, answer encode descr table query = Outcome.exact r ∨
      answer encode descr table query = Outcome.nearest r := by
  cases hd : matchedDistrict table (upperStr query) with
  | some d =>
    obtain ⟨r, hr⟩ := selectRow_some_of_mem table (upperStr query) d
      (matchedDistrict_mem table (upperStr query) d hd)
    exact ⟨r, Or.inl
      (answer_exact_of_select encode descr table query d r hne hchat hd hr)⟩
  | none =>
    have hlt : nearestIdx encode descr table query < table.length := by
      unfold nearestIdx
      cases table with
      | nil => exact absurd rfl hne
      | cons t ts =>
        have h := argminIdx_lt (sqDist (encode query) (encode (descr t)))
          ((ts.map (fun r => encode (descr r))).map (fun v => sqDist (encode query) v))
        simpa using h
    obtain ⟨r, hr⟩ : ∃ r, table.get? (nearestIdx encode descr table query) = some r :=
      ⟨_, List.get?_eq_get hlt⟩
    exact ⟨r, Or.inr
      (answer_nearest_of_no_district encode descr table query r hne hchat hd hr)⟩

/-- Witness for C1 on a concrete table and query. -/
theorem C1_row_selector_total_witness :
    ∃ r : Record, answer encode0 descr0 gunturTable gunturQuery = Outcome.exact r ∨
      answer encode0 descr0 gunturTable gunturQuery = Outcome.nearest r :=
  C1_row_selector_total encode0 descr0 gunturTable gunturQuery
    (by decide) (by decide)

/-- C2: the Stage Classifier is total, returns Unknown exactly on failed
numeric conversion, classifies by the half-open intervals
[0,70) Safe, [70,90) Semi-Critical, [90,100) Critical, [100,∞)
Over-Exploited, and meets the boundary examples 69.9, 70.0, 89.9, 90.0,
99.9 and 100.0. -/
theorem C2_stage_classifier :
    (stage_category none = StageCat.unknown)
    ∧ (∀ s : ℚ, s < 70 → stage_category (some s) = StageCat.safe)
    ∧ (∀ s : ℚ, 70 ≤ s → s < 90 → stage_category (some s) = StageCat.semiCritical)
    ∧ (∀ s : ℚ, 90 ≤ s → s < 100 → stage_category (some s) = StageCat.critical)
    ∧ (∀ s : ℚ, 100 ≤ s → stage_category (some s) = StageCat.overExploited)
    ∧ stage_category (some (699/10)) = StageCat.safe
    ∧ stage_category (some 70) = StageCat.semiCritical
    ∧ stage_category (some (899/10)) = StageCat.semiCritical
    ∧ stage_category (some 90) = StageCat.critical
    ∧ stage_category (some (999/10)) = StageCat.critical
    ∧ stage_category (some 100) = StageCat.overExploited := by
  refine ⟨rfl, ?_, ?_, ?_, ?_, ?_, ?_, ?_, ?_, ?_, ?_⟩
  · intro s h
    simp only [stage_category]
    rw [if_pos h]
  · intro s h1 h2
    simp only [stage_category]
    rw [if_neg (by linarith), if_pos h2]
  · intro s h1 h2
    simp only [stage_category]
    rw [if_neg (by linarith : ¬ s < 70), if_neg (by linarith : ¬ s < 90), if_pos h2]
  · intro s h1
    simp only [stage_category]
    rw [if_neg (by linarith : ¬ s < 70), if_neg (by linarith : ¬ s < 90),
      if_neg (by linarith : ¬ s < 100)]
  · norm_num [stage_category]
  · norm_num [stage_category]
  · norm_num [stage_category]
  · norm_num [stage_category]
  · norm_num [stage_category]
  · norm_num [stage_category]

/-- Witness for C2 at a concrete stage value. -/
theorem C2_stage_classifier_witness :
    stage_category (some 50) = StageCat.safe :=
  C2_stage_classifier.2.1 50 (by norm_num)

/-- C7: with an empty Record table every query — greetings included —
yields the fixed data-unavailable reply: no crash, no chat reply, no
row selection and no nearest-neighbor search. -/
theorem C7_empty_table_unavailable :
    ∀ (encode : Str → List ℚ) (descr : Record → Str) (query : Str),
      answer encode descr [] query = Outcome.unavailable := by
  intro encode descr query
  rfl

/-- C9: `load_data` normalization is idempotent — re-normalizing an
already-normalized table changes nothing: trimming and upper-casing of
district and state, the zero-filled numeric coercion of the four metric
columns and the string cast of the year column are fixed points on
normalized Records. -/
theorem C9_normalizer_idempotent :
    ∀ rows : List RawRecord,
      normalizeTable ((normalizeTable rows).map recordToRaw) = normalizeTable rows := by
  intro rows
  unfold normalizeTable
  rw [List.map_map, List.map_map]
  apply List.map_eq_map_iff.mpr
  intro r _
  show normalizeRecord (recordToRaw (normalizeRecord r)) = normalizeRecord r
  simp [normalizeRecord, recordToRaw, normStr_idem]

/-- C3: when a district matched and no year token was extracted, the
returned row belongs to that district and its YEAR string is greatest
in the plain string order among the district's rows; concretely, GUNTUR
with rows 2018/2019/2020 and the year-less query "guntur" yields the
2020 row. -/
theorem C3_latest_year_selection :
    (∀ (encode : Str → List ℚ) (descr : Record → Str) (table : List Record)
        (query : Str) (d : Str),
      table ≠ [] → basic_chat query = none →
      matchedDistrict table (upperStr query) = some d →
      findYear (upperStr query) = none →
      ∃ r : Record, answer encode descr table query = Outcome.exact r ∧
        r ∈ table ∧ r.district = d ∧
        ∀ r' ∈ table, r'.district = d → strLt r.year r'.year = false)
    ∧ (∀ (encode : Str → List ℚ) (descr : Record → Str),
        answer encode descr gunturTable gunturQuery = Outcome.exact guntur2020) := by
  constructor
  · intro encode descr table query d hne hchat hd hy
    obtain ⟨r0, hr0, hd0⟩ := matchedDistrict_mem table (upperStr query) d hd
    have hmem0 : r0 ∈ table.filter (fun r => decide (r.district = d)) :=
      List.mem_filter.mpr ⟨hr0, by simp [hd0]⟩
    cases hdf : table.filter (fun r => decide (r.district = d)) with
    | nil => rw [hdf] at hmem0; simp at hmem0
    | cons x xs =>
      have hsel : selectRow table (upperStr query) d = some (xs.foldl pickMax x) := by
        rw [selectRow_no_year table (upperStr query) d hy, hdf]
        rfl
      refine ⟨xs.foldl pickMax x,
        answer_exact_of_select encode descr table query d _ hne hchat hd hsel,
        ?_, ?_, ?_⟩
      · have hm := foldl_pickMax_mem xs x
        rw [← hdf] at hm
        exact (List.mem_filter.mp hm).1
      · have hm := foldl_pickMax_mem xs x
        rw [← hdf] at hm
        have hflt := (List.mem_filter.mp hm).2
        simpa using hflt
      · intro r' hr' hdr'
        have hm' : r' ∈ x :: xs := by
          rw [← hdf]
          exact List.mem_filter.mpr ⟨hr', by simp [hdr']⟩
        exact foldl_pickMax_ge xs x r' hm'
  · intro encode descr
    exact answer_exact_of_select encode descr gunturTable gunturQuery gunturStr
      guntur2020 (by decide) (by decide) (by decide) (by decide)

/-- Witness for C3 on the concrete GUNTUR table. -/
theorem C3_latest_year_selection_witness :
    ∃ r : Record, answer encode0 descr0 gunturTable gunturQuery = Outcome.exact r ∧
      r ∈ gunturTable ∧ r.district = gunturStr ∧
      ∀ r' ∈ gunturTable, r'.district = gunturStr → strLt r.year r'.year = false :=
  C3_latest_year_selection.1 encode0 descr0 gunturTable gunturQuery gunturStr
    (by decide) (by decide) (by decide) (by decide)

/-- C4: when a district matched and a year token was extracted, the
answer is the first table row of that district whose YEAR contains the
token as a substring (so "2020" matches a stored "2020-21"); when no
row of the district carries the token the answer falls back to the
district's first row, silently ignoring the year. -/
theorem C4_year_filter_with_fallback :
    (∀ (encode : Str → List ℚ) (descr : Record → Str) (table : List Record)
        (query : Str) (d y : Str),
      table ≠ [] → basic_chat query = none →
      matchedDistrict table (upperStr query) = some d →
      findYear (upperStr query) = some y →
      ((∃ r ∈ table, r.district = d ∧ subStr y r.year = true) →
        ∃ r : Record,
          table.find? (fun x => decide (x.district = d) && subStr y x.year) = some r ∧
          answer encode descr table query = Outcome.exact r)
      ∧ ((∀ r ∈ table, r.district = d → subStr y r.year = false) →
        ∃ r : Record, table.find? (fun x => decide (x.district = d)) = some r ∧
          answer encode descr table query = Outcome.exact r))
    ∧ subStr [50, 48, 50, 48] [50, 48, 50, 48, 45, 50, 49] = true := by
  refine ⟨?_, by decide⟩
  intro encode descr table query d y hne hchat hd hy
  constructor
  · intro hex
    cases hf : table.find? (fun x => decide (x.district = d) && subStr y x.year) with
    | none =>
      exfalso
      obtain ⟨r, hr, hrd, hry⟩ := hex
      have hfail := List.find?_eq_none.mp hf r hr
      simp [hrd, hry] at hfail
    | some r =>
      have hsel : selectRow table (upperStr query) d = some r := by
        refine selectRow_year_hit table (upperStr query) d y r hy ?_
        rw [head?_filter_eq, find?_filter_eq]
        exact hf
      exact ⟨r, rfl,
        answer_exact_of_select encode descr table query d r hne hchat hd hsel⟩
  · intro hall
    have hnil : ((table.filter (fun x => decide (x.district = d))).filter
        (fun x => subStr y x.year)) = [] := by
      rw [List.filter_eq_nil_iff]
      intro a ha
      have hmem := List.mem_filter.mp ha
      have had : a.district = d := by simpa using hmem.2
      simp [hall a hmem.1 had]
    obtain ⟨r0, hr0, hd0⟩ := matchedDistrict_mem table (upperStr query) d hd
    cases hf : table.find? (fun x => decide (x.district = d)) with
    | none =>
      exfalso
      have hfail := List.find?_eq_none.mp hf r0 hr0
      simp [hd0] at hfail
    | some r =>
      have hsel : selectRow table (upperStr query) d = some r := by
        rw [selectRow_year_miss table (upperStr query) d y hy (by rw [hnil]; rfl),
          head?_filter_eq]
        exact hf
      exact ⟨r, rfl,
        answer_exact_of_select encode descr table query d r hne hchat hd hsel⟩

/-- Witness for C4 on the concrete GUNTUR table with query
"guntur 2019". -/
theorem C4_year_filter_with_fallback_witness :
    ∃ r : Record,
      gunturTable.find? (fun x => decide (x.district = gunturStr) &&
        subStr [50, 48, 49, 57] x.year) = some r ∧
      answer encode0 descr0 gunturTable gunturQuery2019 = Outcome.exact r :=
  (C4_year_filter_with_fallback.1 encode0 descr0 gunturTable gunturQuery2019
    gunturStr [50, 48, 49, 57] (by decide) (by decide) (by decide) (by decide)).1
    (by decide)

/-- C5: district detection walks the distinct district names in
first-encounter table order, tests plain substring containment against
the upper-cased query, and the first hit wins; no district name in the
query yields no district, and a name that is a substring of another can
shadow it (PURI before PURI EAST captures the query "PURI EAST"). -/
theorem C5_district_detection :
    (∀ (table : List Record) (q : Str),
      (matchedDistrict table q = none ↔ ∀ r ∈ table, subStr r.district q = false)
      ∧ (∀ d, matchedDistrict table q = some d →
          subStr d q = true ∧
          ∃ i, (table.map Record.district).get? i = some d ∧
            ∀ j, j < i → ∀ x, (table.map Record.district).get? j = some x →
              subStr x q = false))
    ∧ matchedDistrict shadowTable puriEastStr = some puriStr
    ∧ subStr puriEastStr puriEastStr = true := by
  refine ⟨?_, by decide, by decide⟩
  intro table q
  constructor
  · rw [matchedDistrict_eq_find?]
    constructor
    · intro h r hr
      have hfail := List.find?_eq_none.mp h r.district (List.mem_map.mpr ⟨r, hr, rfl⟩)
      revert hfail
      cases subStr r.district q <;> simp
    · intro h
      rw [List.find?_eq_none]
      intro x hx
      rw [List.mem_map] at hx
      obtain ⟨r, hr, rfl⟩ := hx
      simp [h r hr]
  · intro d hd
    rw [matchedDistrict_eq_find?] at hd
    have hp := List.find?_some hd
    obtain ⟨i, hi, _, hall⟩ := find?_some_char hd
    exact ⟨hp, i, hi, hall⟩

/-- Witness for C5 on the shadowed table. -/
theorem C5_district_detection_witness :
    subStr puriStr puriEastStr = true ∧
    ∃ i, (shadowTable.map Record.district).get? i = some puriStr ∧
      ∀ j, j < i → ∀ x, (shadowTable.map Record.district).get? j = some x →
        subStr x puriEastStr = false :=
  (C5_district_detection.1 shadowTable puriEastStr).2 puriStr (by decide)

/-- C6: year detection finds the leftmost occurrence of a 4-digit year
starting "20" in the upper-cased query, returns those four characters
as the token (a hyphenated 2-digit suffix may follow and is tolerated:
"2020-21" yields token "2020"), and yields no year when the pattern
occurs nowhere. -/
theorem C6_year_detection :
    (∀ q : Str, findYear q = none ↔ ∀ i, ¬ yearTokenAt q i)
    ∧ (∀ q y : Str, findYear q = some y →
        ∃ i, yearTokenAt q i ∧
          (∃ a b, q.get? (i + 2) = some a ∧ q.get? (i + 3) = some b ∧
            y = [50, 48, a, b]) ∧
          ∀ j, j < i → ¬ yearTokenAt q j)
    ∧ findYear (upperStr hyphenYearQuery) = some [50, 48, 50, 48]
    ∧ findYear (upperStr gunturQuery) = none :=
  ⟨findYear_none_iff, findYear_some_char, by decide, by decide⟩

/-- Witness for C6 on the hyphenated year query. -/
theorem C6_year_detection_witness :
    ∃ i, yearTokenAt (upperStr hyphenYearQuery) i ∧
      (∃ a b, (upperStr hyphenYearQuery).get? (i + 2) = some a ∧
        (upperStr hyphenYearQuery).get? (i + 3) = some b ∧
        ([50, 48, 50, 48] : Str) = [50, 48, a, b]) ∧
      ∀ j, j < i → ¬ yearTokenAt (upperStr hyphenYearQuery) j :=
  C6_year_detection.2.1 (upperStr hyphenYearQuery) [50, 48, 50, 48] (by decide)

/-- C8: the conversational fallback checks case-insensitive substring
categories in the fixed order greetings, wellbeing phrase, gratitude;
a query matching several categories gets only the greeting reply
("hello, thank you" does), and any matching query is answered with the
canned reply while Row Selector and the Embedding Index are bypassed. -/
theorem C8_conversational_priority :
    (∀ query : Str,
      ((subStr hiStr (lowerStr query) = true ∨
          subStr helloStr (lowerStr query) = true ∨
          subStr heyStr (lowerStr query) = true) →
        basic_chat query = some ChatReply.greeting)
      ∧ (¬ (subStr hiStr (lowerStr query) = true ∨
            subStr helloStr (lowerStr query) = true ∨
            subStr heyStr (lowerStr query) = true) →
          subStr howAreYouStr (lowerStr query) = true →
          basic_chat query = some ChatReply.wellbeing)
      ∧ (¬ (subStr hiStr (lowerStr query) = true ∨
            subStr helloStr (lowerStr query) = true ∨
            subStr heyStr (lowerStr query) = true) →
          subStr howAreYouStr (lowerStr query) = false →
          subStr thankStr (lowerStr query) = true →
          basic_chat query = some ChatReply.gratitude))
    ∧ (∀ (encode : Str → List ℚ) (descr : Record → Str) (table : List Record)
        (query : Str) (c : ChatReply), table ≠ [] → basic_chat query = some c →
        answer encode descr table query = Outcome.chat c)
    ∧ basic_chat helloThankQuery = some ChatReply.greeting
    ∧ subStr thankStr (lowerStr helloThankQuery) = true := by
  refine ⟨?_, ?_, by decide, by decide⟩
  · intro query
    exact ⟨basic_chat_greeting query,
      basic_chat_wellbeing query,
      basic_chat_gratitude query⟩
  · intro encode descr table query c hne hc
    exact answer_chat_of_basic encode descr table query c hne hc

/-- Witness for C8 on the two-category query "hello, thank you". -/
theorem C8_conversational_priority_witness :
    basic_chat helloThankQuery = some ChatReply.greeting ∧
    answer encode0 descr0 gunturTable helloThankQuery = Outcome.chat ChatReply.greeting :=
  ⟨(C8_conversational_priority.1 helloThankQuery).1 (by decide),
    C8_conversational_priority.2.1 encode0 descr0 gunturTable helloThankQuery
      ChatReply.greeting (by decide) (by decide)⟩

/-- C10: with a non-empty table, any query whose lower-cased text
contains "hi", "hello" or "hey" anywhere — also inside longer words
such as "delhi" — is answered with the canned greeting, so it never
reaches district matching or nearest-neighbor search even when it
names a real district of the table. -/
theorem C10_greeting_shadows_district :
    (∀ (encode : Str → List ℚ) (descr : Record → Str) (table : List Record)
        (query : Str), table ≠ [] →
      (subStr hiStr (lowerStr query) = true ∨
        subStr helloStr (lowerStr query) = true ∨
        subStr heyStr (lowerStr query) = true) →
      answer encode descr table query = Outcome.chat ChatReply.greeting)
    ∧ (∀ (encode : Str → List ℚ) (descr : Record → Str),
        answer encode descr [delhiRow] delhiQuery = Outcome.chat ChatReply.greeting)
    ∧ subStr delhiRow.district (upperStr delhiQuery) = true := by
  refine ⟨?_, ?_, by decide⟩
  · intro encode descr table query hne h
    exact answer_chat_of_basic encode descr table query ChatReply.greeting hne
      (basic_chat_greeting query h)
  · intro encode descr
    exact answer_chat_of_basic encode descr [delhiRow] delhiQuery
      ChatReply.greeting (by decide) (by decide)

/-- Witness for C10 on the query "delhi" against a DELHI table. -/
theorem C10_greeting_shadows_district_witness :
    answer encode0 descr0 [delhiRow] delhiQuery = Outcome.chat ChatReply.greeting :=
  C10_greeting_shadows_district.1 encode0 descr0 [delhiRow] delhiQuery
    (by decide) (by decide)

end Groundwater
